import Mathlib

/-!
Verification of the long-audio transcription pipeline of
`transcription_service.py` (class `TranscriptionService` and the HTTP
handlers around it).

The Python source is shallowly embedded: pure computations become Lean
functions over `ℚ` (durations, timestamps), `ℕ`/`ℤ` (counters, progress
percents) and `String`/`List Char` (texts).  The opaque recognition engine
(`model.transcribe`) is modelled as an oracle parameter; disk I/O (segment
files, temporary transcript files) is elided, keeping only the data that
flows onward.  Python `int(x)` on non-negative floats is floor, hence `ℤ`
floors / `ℕ` division below; Python dicts keyed by job id become
association lists or functions to `Option`.
-/

namespace Transcripcion

/-! ### Python string primitives

`str.strip`, `str.lower`, `in`, `str.split('.')` and `str.split()` are
re-implemented structurally on `List Char` so that they compute inside the
kernel (Lean's own `String.trim`/`splitOn` use well-founded recursion).
-/

/-- Characters of Python `s.strip()`: drop whitespace at both ends. -/
def pyStripChars (cs : List Char) : List Char :=
  ((cs.dropWhile Char.isWhitespace).reverse.dropWhile Char.isWhitespace).reverse

/-- Python `s.strip()`. -/
def pyStrip (s : String) : String :=
  String.mk (pyStripChars s.data)

/-- Python `s.lower()` (ASCII case folding, enough for the source's uses). -/
def pyLower (s : String) : String :=
  String.mk (s.data.map Char.toLower)

/-- Does `hay` start with `needle` (on characters)? -/
def pyStartsWithChars : List Char → List Char → Bool
  | _, [] => true
  | [], _ :: _ => false
  | c :: cs, d :: ds => c = d && pyStartsWithChars cs ds

/-- Substring containment on characters, Python's `needle in hay`. -/
def pySubChars : List Char → List Char → Bool
  | [], needle => needle.isEmpty
  | c :: rest, needle => pyStartsWithChars (c :: rest) needle || pySubChars rest needle

/-- Python `needle in hay` for strings. -/
def pyContains (hay needle : String) : Bool :=
  pySubChars hay.data needle.data

/-- Python `text.split('.')`: split at every dot, empty pieces kept. -/
def pySplitDot (s : String) : List String :=
  (s.data.splitOn '.').map String.mk

/-- Python `text.split()` (no argument): whitespace-separated words,
empty pieces discarded. -/
def pyWords (s : String) : List String :=
  ((s.data.foldr
      (fun c acc =>
        if c.isWhitespace then [] :: acc
        else (c :: acc.headI) :: acc.tail)
      [[]]).filter (fun w => w ≠ [])).map String.mk

/-- Python `range(start, stop, step)` for `step ≥ 1`, via structural fuel
recursion (`stop - start` bounds the iteration count). -/
def pyRangeStepAux (step : ℕ) : ℕ → ℕ → ℕ → List ℕ
  | 0, _, _ => []
  | fuel + 1, start, stop =>
    if start < stop then start :: pyRangeStepAux step fuel (start + step) stop
    else []

/-- Python `range(start, stop, step)` (`step ≥ 1`; the source always passes
`max(1, _)`). -/
def pyRangeStep (start stop step : ℕ) : List ℕ :=
  pyRangeStepAux step (stop - start) start stop

/-! ### Configuration (`CONFIG`, lines 146-161)

Environment-variable defaults: `ROBUST_MODE` defaults to `'true'`
(line 135), `high_memory_mode` is hard-coded `True`, `segment_length` 600,
`parallel_workers` 3. -/

structure Config where
  high_memory_mode : Bool
  segment_length : ℕ
  parallel_workers : ℕ
  robust_mode : Bool
  default_language : String
  max_file_size : ℕ
  supported_formats : List String

/-- The `CONFIG` dict of the source with its default (no overriding
environment variables) values. -/
def CONFIG : Config :=
  ⟨true, 600, 3, true, "es", 500 * 1024 * 1024,
    [".mp3", ".wav", ".flac", ".m4a", ".ogg"]⟩

/-! ### Progress records (`transcription_progress`, per-job dict values) -/

/-- Job status strings used by the source: `'iniciando'`, `'transcribiendo'`,
`'completado'`, `'error'`. -/
inductive JobStatus
  | iniciando
  | transcribiendo
  | completado
  | error
deriving DecidableEq

/-- The fields of one `transcription_progress[job_id]` record that the
claims are about (status, creation timestamp, optional error message). -/
structure Progress where
  status : JobStatus
  start_time : ℚ
  error : Option String
deriving DecidableEq

/-- Source line 1162: `job_status in ['completado', 'error']`. -/
def is_terminal (s : JobStatus) : Bool :=
  s = JobStatus.completado || s = JobStatus.error

/-! ### Segmentation decision (`transcribe_audio`, lines 655-657) -/

/-- Line 656: `segment_threshold = 600 if CONFIG.get('high_memory_mode', False) else 300`. -/
def segment_threshold (high_memory_mode : Bool) : ℚ :=
  if high_memory_mode then 600 else 300

/-- Line 657: `use_segmentation = audio_info['duration'] > segment_threshold`. -/
def use_segmentation (total_duration : ℚ) (high_memory_mode : Bool) : Bool :=
  decide (segment_threshold high_memory_mode < total_duration)

/-! ### Cleanup endpoint (`cleanup_jobs`, lines 1146-1181)

The handler computes `cutoff_time = current_time - older_than_minutes*60`,
collects ids of jobs with terminal status and `start_time < cutoff_time`,
deletes them from the dict, and reports the removed ids.  The dict is
modelled as an association list (insertion order, unique keys). -/

/-- Lines 1153-1167: the `/cleanup` sweep.  Returns (removed ids,
remaining records). -/
def cleanup_jobs (older_than_minutes current_time : ℚ)
    (jobs : List (String × Progress)) : List String × List (String × Progress) :=
  let cutoff_time := current_time - older_than_minutes * 60
  ((jobs.filter fun j =>
      is_terminal j.2.status && decide (j.2.start_time < cutoff_time)).map Prod.fst,
   jobs.filter fun j =>
      !(is_terminal j.2.status && decide (j.2.start_time < cutoff_time)))

/-! ### Segmenter (`segment_audio`, lines 322-369)

`total_duration = len(audio) / sr` is a non-negative real, modelled as `ℚ`;
`segment_duration` is the integer `CONFIG['segment_length']`.  The source
computes `num_segments = int(np.ceil(total_duration / segment_duration))`
and for `i in range(num_segments)` the slice
`start_time = i * segment_duration`,
`end_time = min((i + 1) * segment_duration, total_duration)`.
Writing the slices to disk is elided; the (start, end) second offsets are
what the claims are about. -/

/-- Line 335: `num_segments = int(np.ceil(total_duration / segment_duration))`. -/
def num_segments (total_duration : ℚ) (segment_duration : ℕ) : ℤ :=
  ⌈total_duration / (segment_duration : ℚ)⌉

/-- Lines 345-347: the (start_time, end_time) pairs of the produced
segments, in order. -/
def segment_bounds (total_duration : ℚ) (segment_duration : ℕ) : List (ℚ × ℚ) :=
  (List.range (num_segments total_duration segment_duration).toNat).map
    fun (i : ℕ) =>
      (((i : ℕ) : ℚ) * (segment_duration : ℚ),
       min ((((i : ℕ) : ℚ) + 1) * (segment_duration : ℚ)) total_duration)

/-! ### Recognition-engine oracle

`model.transcribe(path, ...)` returns `(segments, info)`; the engine is
opaque, so a transcription outcome for one unit of work is either the list
of recognized sub-segment texts together with `info`, or a raised
exception carrying its message string. -/

/-- A successful `(segments, info)` pair for one segment file: the
sub-segment texts and `info.language` / `info.duration` /
`info.language_probability`. -/
structure SegOk where
  texts : List String
  language : String
  duration : ℚ
  language_probability : ℚ
deriving DecidableEq

/-! ### Parallel scheduler (`transcribe_segments_parallel`, lines 371-487) -/

/-- The result dict a parallel worker returns (lines 427-443): the success
branch carries transcription/duration/language, the exception branch a
placeholder text and the error message.  Fields absent from a branch's
dict are `none` (`result.get(...)` supplies the defaults later). -/
structure ParallelResult where
  index : ℕ
  transcription : String
  duration : Option ℚ
  language : Option String
  language_probability : Option ℚ
  error : Option String
deriving DecidableEq

/-- Line 440: `f"[Error en segmento {segment_num}]"`. -/
def parallel_placeholder (segment_num : ℕ) : String :=
  "[Error en segmento " ++ toString segment_num ++ "]"

/-- Lines 413-416: `segment_transcription += segment.text` over the
engine's sub-segments. -/
def join_texts_parallel (texts : List String) : String :=
  String.join texts

/-- One worker task, `transcribe_single_segment` (lines 383-443).  The
progress writes it performs are modelled separately (see the C3 traces);
file output of the per-segment transcript is elided. -/
def transcribe_single_segment (oracle : ℕ → Except String SegOk)
    (segment_index : ℕ) : ParallelResult :=
  match oracle segment_index with
  | Except.ok r =>
      ⟨segment_index, join_texts_parallel r.texts, some r.duration,
        some r.language, some r.language_probability, none⟩
  | Except.error e =>
      ⟨segment_index, parallel_placeholder (segment_index + 1), none, none,
        none, some e⟩

/-- Lines 456-461: `results = [None] * total_segments` and, for each
completed future in completion order, `results[result['index']] = result`. -/
def collect_results (total_segments : ℕ) (completion_order : List ℕ)
    (worker : ℕ → ParallelResult) : List (Option ParallelResult) :=
  completion_order.foldl
    (fun results i => results.set (worker i).index (some (worker i)))
    (List.replicate total_segments none)

/-- One entry of `transcriptions_data` as consumed by `transcribe_audio`
(common shape of the dicts built at lines 477-484 and 532-538/557-562):
optional fields mirror keys that may be missing from the dict. -/
structure TransData where
  segment_number : ℕ
  text : String
  language : Option String
  duration : Option ℚ
  error : Option String
deriving DecidableEq

/-- Lines 475-484: `for i, result in enumerate(results): if result:`
append a `transcriptions_data` entry (an error dict's `'error'` key is
dropped here; `.get` defaults fill `language`/`duration`). -/
def combine_parallel_aux : ℕ → List (Option ParallelResult) → List TransData
  | _, [] => []
  | i, none :: rest => combine_parallel_aux (i + 1) rest
  | i, some r :: rest =>
      ⟨i + 1, r.transcription, some (r.language.getD "unknown"),
        some (r.duration.getD 0), none⟩ :: combine_parallel_aux (i + 1) rest

/-- The in-order combination step of the parallel scheduler. -/
def combine_parallel (results : List (Option ParallelResult)) : List TransData :=
  combine_parallel_aux 0 results

/-- `transcribe_segments_parallel` as a function of the number of segments,
the engine oracle, and the order in which the worker futures complete. -/
def transcribe_segments_parallel (oracle : ℕ → Except String SegOk)
    (total_segments : ℕ) (completion_order : List ℕ) : List TransData :=
  combine_parallel
    (collect_results total_segments completion_order
      (transcribe_single_segment oracle))

/-! ### Sequential scheduler (`transcribe_segments`, lines 489-564) -/

/-- Line 559: `f"[ERROR: No se pudo transcribir el segmento {segment_num}]"`. -/
def seq_placeholder (segment_num : ℕ) : String :=
  "[ERROR: No se pudo transcribir el segmento " ++ toString segment_num ++ "]"

/-- Lines 527-531: `segment_text += segment.text + " "` then `.strip()`. -/
def join_texts_seq (texts : List String) : String :=
  pyStrip (String.join (texts.map fun t => t ++ " "))

/-- The sequential loop of `transcribe_segments` (lines 502-563): one
engine call per segment; an exception is caught and recorded as a
placeholder entry and the loop continues with the next segment. -/
def transcribe_segments_seq (oracle : ℕ → Except String SegOk)
    (total_segments : ℕ) : List TransData :=
  (List.range total_segments).map fun i =>
    match oracle i with
    | Except.ok r =>
        ⟨i + 1, join_texts_seq r.texts, some r.language, some r.duration, none⟩
    | Except.error e =>
        ⟨i + 1, seq_placeholder (i + 1), none, none, some e⟩

/-- Lines 689-704 of `transcribe_audio`: `full_text` accumulates
`trans_data['text'] + "\n\n"` for every entry, error or not. -/
def assemble_full_text (ds : List TransData) : String :=
  ds.foldl (fun acc d => acc ++ d.text ++ "\n\n") ""

/-! ### Retry/fallback loop of the direct (non-segmented) path
(`transcribe_audio`, lines 769-836)

`max_retries = 2 if CONFIG['robust_mode'] else 1`; the loop body calls
`model.transcribe` once per attempt.  On an exception: if attempts remain
and the message mentions cuda/cudnn, `CONFIG['device'] = 'cpu'` and retry;
if it was the last attempt, re-raise; otherwise the `for` simply proceeds
to the next attempt with the device unchanged.  The engine call is an
oracle of the attempt number and the current device. -/

/-- `CONFIG['device']` values relevant to the retry loop. -/
inductive PyDevice
  | cuda
  | cpu
deriving DecidableEq

/-- Line 829: `'cudnn' in error_msg.lower() or 'cuda' in error_msg.lower()`. -/
def cuda_indicated (error_msg : String) : Bool :=
  pyContains (pyLower error_msg) "cudnn" || pyContains (pyLower error_msg) "cuda"

/-- The `for attempt in range(max_retries)` loop (lines 772-836) over the
remaining attempt indices.  Returns (outcome, number of attempts made,
final `CONFIG['device']`).  The `[]` case is unreachable for a range of
`max_retries ≥ 1` attempts: the last attempt either succeeds or re-raises. -/
def attempt_loop {α : Type} (oracle : ℕ → PyDevice → Except String α)
    (max_retries : ℕ) : List ℕ → PyDevice → Except String α × ℕ × PyDevice
  | [], dev => (Except.error "", 0, dev)
  | attempt :: rest, dev =>
    match oracle attempt dev with
    | Except.ok v => (Except.ok v, 1, dev)
    | Except.error e =>
      if attempt < max_retries - 1 && cuda_indicated e then
        let r := attempt_loop oracle max_retries rest PyDevice.cpu
        (r.1, r.2.1 + 1, r.2.2)
      else if attempt = max_retries - 1 then (Except.error e, 1, dev)
      else
        let r := attempt_loop oracle max_retries rest dev
        (r.1, r.2.1 + 1, r.2.2)

/-- The whole-file transcription attempt controller (lines 769-836). -/
def transcribe_with_retries {α : Type} (robust_mode : Bool)
    (oracle : ℕ → PyDevice → Except String α) (dev0 : PyDevice) :
    Except String α × ℕ × PyDevice :=
  attempt_loop oracle (if robust_mode then 2 else 1)
    (List.range (if robust_mode then 2 else 1)) dev0

/-! ### Progress-percent traces (claim C3)

The sequence of writes to `transcription_progress[job_id]` along each
successful control path of `transcribe_audio`, in program order.  Each
update is recorded as the percent written (if the update writes
`'progress'`) and the status written (if it writes `'status'`). -/

/-- One update of the job's progress record. -/
structure Upd where
  pct : Option ℤ
  st : Option JobStatus
deriving DecidableEq

/-- Updates shared by both segmented paths before segment transcription
starts: lines 612 (init, 0/'iniciando'), 630 (5), 637 (10), 647 (20),
663 (22), 672 (25/'transcribiendo'). -/
def segmented_head_upds : List Upd :=
  [⟨some 0, some JobStatus.iniciando⟩, ⟨some 5, none⟩, ⟨some 10, none⟩,
   ⟨some 20, none⟩, ⟨some 22, none⟩,
   ⟨some 25, some JobStatus.transcribiendo⟩]

/-- Updates after segment transcription in the segmented paths: line 684
(90), line 710 (92, only when a summary is generated), line 722 (95),
line 884 (95, common finalization). -/
def segmented_tail (generate_summary : Bool) : List Upd :=
  [⟨some 90, none⟩] ++
    (if generate_summary then [⟨some 92, none⟩] else []) ++
    [⟨some 95, none⟩, ⟨some 95, none⟩]

/-- Line 928: the final update, `status 'completado'`, `progress 100`. -/
def final_upd : Upd :=
  ⟨some 100, some JobStatus.completado⟩

/-- Line 508: `progress = 25 + int((i / total_segments) * 65)`, written
before transcribing segment `i` (0-based) of `n`. -/
def seq_segment_pct (n i : ℕ) : ℤ :=
  25 + (65 * i / n : ℕ)

/-- The body (all updates but the final one) of a successful sequential
segmented run over `n` segments. -/
def seq_trace_body (n : ℕ) (generate_summary : Bool) : List Upd :=
  segmented_head_upds ++
    ((List.range n).map fun i => ⟨some (seq_segment_pct n i), none⟩) ++
    segmented_tail generate_summary

/-- The full update trace of a successful sequential segmented run. -/
def seq_trace (n : ℕ) (generate_summary : Bool) : List Upd :=
  seq_trace_body n generate_summary ++ [final_upd]

/-- Line 391 / 465: `int((completed_segments / total_segments) * 70) + 20`. -/
def parallel_pct (n completed : ℕ) : ℤ :=
  20 + (70 * completed / n : ℕ)

/-- A scheduling event inside `transcribe_segments_parallel`: `pre` is a
worker writing progress before its engine call (line 391, reading the
current shared `completed_segments`); `done` is the driver collecting one
future, incrementing `completed_segments` and writing progress (lines
462-467). -/
inductive PEvent
  | pre
  | done

/-- The progress updates produced by a given interleaving of worker
pre-updates and completions, starting from `completed` finished segments. -/
def parallel_updates (n : ℕ) : List PEvent → ℕ → List Upd
  | [], _ => []
  | PEvent.pre :: evs, completed =>
      ⟨some (parallel_pct n completed), none⟩ :: parallel_updates n evs completed
  | PEvent.done :: evs, completed =>
      ⟨some (parallel_pct n (completed + 1)), none⟩ ::
        parallel_updates n evs (completed + 1)

/-- The body of a successful parallel segmented run over `n` segments
whose workers interleave as `evs`. -/
def parallel_trace_body (n : ℕ) (evs : List PEvent)
    (generate_summary : Bool) : List Upd :=
  segmented_head_upds ++ parallel_updates n evs 0 ++
    segmented_tail generate_summary

/-- The full update trace of a successful parallel segmented run. -/
def parallel_trace (n : ℕ) (evs : List PEvent)
    (generate_summary : Bool) : List Upd :=
  parallel_trace_body n evs generate_summary ++ [final_upd]

/-- Line 865: `progress = 50 + int((processed_duration / duration) * 40)`,
written capped at 90 (line 874) for every tenth engine sub-segment. -/
def direct_pct (total_duration processed : ℚ) : ℤ :=
  min (50 + ⌊processed / total_duration * 40⌋) 90

/-- The progress updates of the direct path's sub-segment loop (lines
850-878): `processed_duration += segment.end - segment.start` and an
update every time `i % 10 == 0`. -/
def direct_updates (total_duration : ℚ) :
    List (ℚ × ℚ) → ℕ → ℚ → List Upd
  | [], _, _ => []
  | seg :: rest, i, processed =>
      (if i % 10 = 0 then
          [⟨some (direct_pct total_duration (processed + (seg.2 - seg.1))), none⟩]
        else []) ++
        direct_updates total_duration rest (i + 1) (processed + (seg.2 - seg.1))

/-- The body of a successful direct (non-segmented) run: lines 612 (0),
630 (5), 637 (10), 647 (20), 762 (25/'transcribiendo'),
839 (50/'transcribiendo'), the sub-segment loop, 884 (95) and 917 (97,
only when a summary is generated). -/
def direct_trace_body (segs : List (ℚ × ℚ)) (total_duration : ℚ)
    (generate_summary : Bool) : List Upd :=
  [⟨some 0, some JobStatus.iniciando⟩, ⟨some 5, none⟩, ⟨some 10, none⟩,
   ⟨some 20, none⟩, ⟨some 25, some JobStatus.transcribiendo⟩,
   ⟨some 50, some JobStatus.transcribiendo⟩] ++
    direct_updates total_duration segs 0 0 ++
    ([⟨some 95, none⟩] ++ (if generate_summary then [⟨some 97, none⟩] else []))

/-- The full update trace of a successful direct run over the engine's
timed sub-segments `segs` of an audio of length `total_duration`. -/
def direct_trace (segs : List (ℚ × ℚ)) (total_duration : ℚ)
    (generate_summary : Bool) : List Upd :=
  direct_trace_body segs total_duration generate_summary ++ [final_upd]

/-! ### Validation and the exit paths of `transcribe_audio`
(lines 271-299, 598-965)

`transcribe_audio` creates `transcription_progress[job_id]` (line 612)
before entering the `try:` that starts with validation (line 628).  Any
exception from the `try` body lands in the handler at line 948, which
writes `status 'error'` plus the message and returns `success: False`;
the success path deletes the preprocessed temporary file at line 890
before returning.  The exception handler performs no file deletion.
The environment of one call bundles the probed file facts and the outcome
of the opaque rest of the pipeline (model load, transcription, assembly):
all of it runs inside the same `try`. -/

/-- Facts `validate_audio_file` (lines 271-299) observes about the input
file; `probe` is the librosa duration/samplerate probe outcome. -/
structure FileEnv where
  file_exists : Bool
  file_size : ℕ
  file_ext : String
  probe : Except String (ℚ × ℕ)

/-- `validate_audio_file` (lines 271-299): existence, size and format
checks, then the audio probe.  (The Python size message interpolates the
size with one decimal; the integer megabyte count stands in for it.) -/
def validate_audio_file (env : FileEnv) (file_path : String) :
    Except String (ℚ × ℕ) :=
  if !env.file_exists then
    Except.error ("Archivo no encontrado: " ++ file_path)
  else if CONFIG.max_file_size < env.file_size then
    Except.error ("Archivo demasiado grande: " ++
      toString (env.file_size / (1024 * 1024)) ++ "MB")
  else if !(CONFIG.supported_formats.contains env.file_ext) then
    Except.error ("Formato no soportado: " ++ env.file_ext)
  else
    match env.probe with
    | Except.ok info => Except.ok info
    | Except.error e => Except.error ("Error leyendo archivo de audio: " ++ e)

/-- The environment of one `transcribe_audio` call:
`preprocess_creates_temp` is whether `preprocess_audio` (lines 301-320)
returned a path different from the input (a fresh `_processed.wav`);
`pipeline` is the outcome of everything after preprocessing inside the
`try` (engine load, transcription, assembly), opaque here. -/
structure RunEnv where
  file : FileEnv
  file_path : String
  preprocess_creates_temp : Bool
  pipeline : Except String Unit

/-- Observable outcome of one `transcribe_audio` call: the final progress
record fields for its job, the `success` flag of the returned dict, and
the temporary-file bookkeeping. -/
structure RunOutcome where
  record_status : JobStatus
  record_error : Option String
  success : Bool
  temp_created : Bool
  temp_deleted : Bool
deriving DecidableEq

/-- Line 949: `error_msg = f"Error en transcripción: {str(e)}"`. -/
def run_error_msg (e : String) : String :=
  "Error en transcripción: " ++ e

/-- The exit-path behaviour of `transcribe_audio` (lines 598-965): the
record is created before validation; a validation failure reaches the
handler before any temporary file exists; after a successful validation
the preprocessor may create a temporary file, which line 890 deletes on
the success path only — the handler at line 948 returns without deleting
it. -/
def transcribe_audio_run (env : RunEnv) : RunOutcome :=
  match validate_audio_file env.file env.file_path with
  | Except.error e =>
      ⟨JobStatus.error, some (run_error_msg e), false, false, false⟩
  | Except.ok _ =>
      match env.pipeline with
      | Except.ok _ =>
          ⟨JobStatus.completado, none, true, env.preprocess_creates_temp,
            env.preprocess_creates_temp⟩
      | Except.error e =>
          ⟨JobStatus.error, some (run_error_msg e), false,
            env.preprocess_creates_temp, false⟩

/-- Python dict assignment `transcription_progress[job_id] = ...` on a
store modelled as a function to `Option`. -/
def store_set (store : String → Option Progress) (job_id : String)
    (v : Progress) : String → Option Progress :=
  fun q => if q = job_id then some v else store q

/-- One `transcribe_audio` call updating the global
`transcription_progress` store: the job's record is created at line 612
(before validation) and every later update overwrites the same key, so
the store after the call holds the final record of `transcribe_audio_run`
under `job_id`.  Returns the new store and the `success` flag. -/
def transcribe_audio_store (store : String → Option Progress)
    (job_id : String) (start_time : ℚ) (env : RunEnv) :
    (String → Option Progress) × Bool :=
  let out := transcribe_audio_run env
  (store_set store job_id ⟨out.record_status, start_time, out.record_error⟩,
    out.success)

/-! ### Summary generation (`generate_summary`, lines 967-1025) -/

/-- Line 970: the fixed reply for empty or whitespace-only text. -/
def no_content_msg : String :=
  "No hay contenido para resumir."

/-- Line 975: `[s.strip() for s in text.split('.') if s.strip()]`. -/
def sentence_list (text : String) : List String :=
  ((pySplitDot text).map pyStrip).filter fun s => s ≠ ""

/-- Python `'. '.join(xs)`. -/
def join_dot_space : List String → String
  | [] => ""
  | [x] => x
  | x :: y :: xs => x ++ ". " ++ join_dot_space (y :: xs)

/-- Lines 996-1005: middle-sentence selection for texts of more than five
sentences. -/
def middle_selection (sentences : List String) (total summary_length : ℕ)
    (base : List String) : List String :=
  if 5 < total then
    let middle_count := summary_length - 3
    if 0 < middle_count then
      let step := max 1 ((total - 1 - 2) / middle_count)
      (pyRangeStep 2 (total - 1) step).foldl
        (fun acc i =>
          if acc.length < summary_length - 1 then acc ++ [sentences.getD i ""]
          else acc)
        base
    else base
  else base

/-- Lines 1011-1017: order-preserving deduplication. -/
def dedup_keep_order (xs : List String) : List String :=
  xs.foldl (fun acc s => if s ∈ acc then acc else acc ++ [s]) []

/-- `generate_summary` (lines 967-1025). -/
def generate_summary (text : String) : String :=
  if pyStrip text = "" then no_content_msg
  else
    let t := pyStrip text
    let sentences := sentence_list t
    let total := sentences.length
    if total ≤ 3 then t
    else
      let summary_length := max 3 (min (total / 3) 10)
      let summary_sentences := middle_selection sentences total summary_length
        (sentences.take 2)
      let with_last :=
        if 1 < total then summary_sentences ++ [sentences.getLastD ""]
        else summary_sentences
      let unique := dedup_keep_order with_last
      let word_count := (pyWords t).length
      join_dot_space unique ++ "." ++
        "\n\n📊 Estadísticas: " ++ toString total ++ " oraciones, ~" ++
        toString word_count ++ " palabras en la transcripción original."

/-! ## Claim C6: segmentation decision -/

/-- C6: a job is segmented if and only if the probed total duration is
strictly greater than the threshold, which is 600 seconds in the
high-memory configuration the source hard-codes (`CONFIG['high_memory_mode']
= True`); a duration of exactly 600 s takes the direct path. -/
theorem c6_segmentation_iff_over_threshold :
    CONFIG.high_memory_mode = true
    ∧ segment_threshold CONFIG.high_memory_mode = 600
    ∧ (∀ total_duration : ℚ,
        use_segmentation total_duration CONFIG.high_memory_mode =
          decide (600 < total_duration))
    ∧ use_segmentation 600 CONFIG.high_memory_mode = false :=
  ⟨rfl, rfl, fun _ => rfl, by decide⟩

/-! ## Claim C7: cleanup with `older_than_minutes = 0` -/

/-- C7: with `older_than_minutes = 0` (so the cutoff is the current time),
`/cleanup` removes exactly the jobs in a terminal state (`completado` or
`error`) — given that every record's `start_time` precedes the current
time — leaves every non-terminal record untouched, reports the removed
ids and their count, and a second sweep on the remainder removes
nothing. -/
theorem c7_cleanup_zero_removes_terminal (now : ℚ)
    (jobs : List (String × Progress))
    (h : ∀ j ∈ jobs, j.2.start_time < now) :
    (cleanup_jobs 0 now jobs).1 =
      (jobs.filter fun j => is_terminal j.2.status).map Prod.fst
    ∧ (cleanup_jobs 0 now jobs).1.length =
        (jobs.filter fun j => is_terminal j.2.status).length
    ∧ (cleanup_jobs 0 now jobs).2 =
        (jobs.filter fun j => !is_terminal j.2.status)
    ∧ ∀ now2 : ℚ, (cleanup_jobs 0 now2 (cleanup_jobs 0 now jobs).2).1 = [] := by
  have hcut : now - 0 * 60 = now := by ring
  have hfil : (jobs.filter fun j =>
      is_terminal j.2.status && decide (j.2.start_time < now - 0 * 60)) =
      jobs.filter fun j => is_terminal j.2.status := by
    apply List.filter_congr
    intro j hj
    rw [hcut, decide_eq_true (h j hj), Bool.and_true]
  have hfil2 : (jobs.filter fun j =>
      !(is_terminal j.2.status && decide (j.2.start_time < now - 0 * 60))) =
      jobs.filter fun j => !is_terminal j.2.status := by
    apply List.filter_congr
    intro j hj
    rw [hcut, decide_eq_true (h j hj), Bool.and_true]
  refine ⟨?_, ?_, ?_, ?_⟩
  · simp only [cleanup_jobs]
    rw [hfil]
  · simp only [cleanup_jobs]
    rw [hfil, List.length_map]
  · simp only [cleanup_jobs]
    rw [hfil2]
  · intro now2
    simp only [cleanup_jobs]
    rw [hfil2]
    have : (List.filter
        (fun j => is_terminal j.2.status &&
          decide (j.2.start_time < now2 - 0 * 60))
        (jobs.filter fun j => !is_terminal j.2.status)) = [] := by
      rw [List.filter_eq_nil_iff]
      intro j hj
      have := (List.mem_filter.mp hj).2
      simp only [Bool.not_eq_true'] at this
      simp [this]
    rw [this]
    rfl

/-- Concrete jobs for the C7 witness: a completed job, a running job and a
failed job, all started before time 100. -/
def c7_jobs : List (String × Progress) :=
  [("a", ⟨JobStatus.completado, 10, none⟩),
   ("b", ⟨JobStatus.transcribiendo, 20, none⟩),
   ("c", ⟨JobStatus.error, 5, some "boom"⟩)]

/-- Witness for C7 at a concrete store: the two terminal jobs go, the
running one stays, and a second sweep removes nothing. -/
theorem c7_cleanup_zero_removes_terminal_witness :
    (∀ j ∈ c7_jobs, j.2.start_time < (100 : ℚ))
    ∧ (cleanup_jobs 0 100 c7_jobs).1 = ["a", "c"]
    ∧ (cleanup_jobs 0 100 c7_jobs).2 = [("b", ⟨JobStatus.transcribiendo, 20, none⟩)]
    ∧ (cleanup_jobs 0 101 (cleanup_jobs 0 100 c7_jobs).2).1 = [] := by
  have h := c7_cleanup_zero_removes_terminal 100 c7_jobs (by decide)
  refine ⟨by decide, ?_, ?_, h.2.2.2 101⟩
  · rw [h.1]; rfl
  · rw [h.2.2.1]; rfl

/-! ## Claim C2: segment boundaries -/

/-- The `i`-th produced slice, for `i` below the segment count. -/
theorem segment_bounds_get? (D : ℚ) (L : ℕ) (i : ℕ)
    (hi : i < (num_segments D L).toNat) :
    (segment_bounds D L).get? i =
      some ((i : ℚ) * (L : ℚ), min (((i : ℚ) + 1) * (L : ℚ)) D) := by
  rw [segment_bounds, List.get?_map, List.get?_range hi]
  rfl

/-- Any index strictly below the ceiling count starts strictly inside the
audio: `i * L < D`. -/
theorem segment_start_lt (D : ℚ) (L : ℕ) (hL : 0 < L)
    (i : ℕ) (hi : i < (num_segments D L).toNat) : (i : ℚ) * (L : ℚ) < D := by
  have hL' : (0 : ℚ) < (L : ℚ) := by exact_mod_cast hL
  have hi' : (i : ℤ) < ⌈D / (L : ℚ)⌉ := Int.lt_toNat.mp hi
  have h2 : (i : ℤ) ≤ ⌈D / (L : ℚ)⌉ - 1 := by omega
  have h3 : ((i : ℤ) : ℚ) ≤ ((⌈D / (L : ℚ)⌉ - 1 : ℤ) : ℚ) := by exact_mod_cast h2
  have h4 : ((⌈D / (L : ℚ)⌉ : ℤ) : ℚ) - 1 < D / (L : ℚ) := by
    have := Int.ceil_lt_add_one (D / (L : ℚ))
    linarith
  have h5 : (i : ℚ) < D / (L : ℚ) := by
    push_cast at h3
    linarith
  exact (lt_div_iff hL').mp h5

/-- A positive duration yields at least one segment. -/
theorem num_segments_pos (D : ℚ) (L : ℕ) (hD : 0 < D) (hL : 0 < L) :
    0 < num_segments D L := by
  have hL' : (0 : ℚ) < (L : ℚ) := by exact_mod_cast hL
  exact Int.ceil_pos.mpr (div_pos hD hL')

/-- The number of produced segments is the ceiling count. -/
theorem segment_bounds_length (D : ℚ) (L : ℕ) :
    (segment_bounds D L).length = (num_segments D L).toNat := by
  rw [segment_bounds, List.length_map, List.length_range]

/-- C2: for positive total duration `D` and segment length `L`,
`segment_audio` produces exactly `⌈D/L⌉` slices whose (start, end)
intervals are non-empty (hence non-overlapping given contiguity), pairwise
contiguous, start at 0 and end exactly at `D` (the last slice is the
shortened remainder); in particular, 1205 s split at 600 s gives
`[0,600), [600,1200), [1200,1205)`. -/
theorem c2_segment_bounds_partition :
    (∀ (D : ℚ) (L : ℕ), 0 < D → 0 < L →
      ((segment_bounds D L).length : ℤ) = num_segments D L
      ∧ (∀ i p, (segment_bounds D L).get? i = some p →
          p.1 = (i : ℚ) * (L : ℚ) ∧ p.1 < p.2)
      ∧ (∀ i p q, (segment_bounds D L).get? i = some p →
          (segment_bounds D L).get? (i + 1) = some q → p.2 = q.1)
      ∧ ((segment_bounds D L).get? 0).map Prod.fst = some 0
      ∧ ((segment_bounds D L).getLast?).map Prod.snd = some D)
    ∧ segment_bounds 1205 600 = [(0, 600), (600, 1200), (1200, 1205)] := by
  constructor
  · intro D L hD hL
    have hL' : (0 : ℚ) < (L : ℚ) := by exact_mod_cast hL
    have hnpos : 0 < num_segments D L := num_segments_pos D L hD hL
    have hnat : 0 < (num_segments D L).toNat := Int.lt_toNat.mpr hnpos
    refine ⟨?_, ?_, ?_, ?_, ?_⟩
    · rw [segment_bounds_length]
      exact Int.toNat_of_nonneg hnpos.le
    · intro i p hp
      have hi : i < (num_segments D L).toNat := by
        rcases List.get?_eq_some.mp hp with ⟨hlen, _⟩
        rwa [segment_bounds_length] at hlen
      rw [segment_bounds_get? D L i hi] at hp
      injection hp with hp'
      subst hp'
      refine ⟨rfl, lt_min ?_ ?_⟩
      · have : (i : ℚ) < (i : ℚ) + 1 := lt_add_one _
        exact mul_lt_mul_of_pos_right this hL'
      · exact segment_start_lt D L hL i hi
    · intro i p q hp hq
      have hi1 : i + 1 < (num_segments D L).toNat := by
        rcases List.get?_eq_some.mp hq with ⟨hlen, _⟩
        rwa [segment_bounds_length] at hlen
      have hi : i < (num_segments D L).toNat := Nat.lt_of_succ_lt hi1
      rw [segment_bounds_get? D L i hi] at hp
      rw [segment_bounds_get? D L (i + 1) hi1] at hq
      injection hp with hp'
      injection hq with hq'
      subst hp'
      subst hq'
      have hlt : ((i + 1 : ℕ) : ℚ) * (L : ℚ) < D :=
        segment_start_lt D L hL (i + 1) hi1
      have hcast : ((i + 1 : ℕ) : ℚ) = (i : ℚ) + 1 := by push_cast; ring
      rw [hcast] at hlt
      show min (((i : ℚ) + 1) * (L : ℚ)) D = ((i + 1 : ℕ) : ℚ) * (L : ℚ)
      rw [hcast]
      exact min_eq_left hlt.le
    · have h0 := segment_bounds_get? D L 0 hnat
      rw [h0]
      simp
    · have hlast : (segment_bounds D L).getLast? =
          (segment_bounds D L).get? ((segment_bounds D L).length - 1) :=
        List.getLast?_eq_get? _
      rw [hlast, segment_bounds_length,
        segment_bounds_get? D L ((num_segments D L).toNat - 1)
          (by omega)]
      have hcast : (((num_segments D L).toNat - 1 : ℕ) : ℚ) + 1 =
          (((num_segments D L).toNat : ℕ) : ℚ) := by
        have : ((num_segments D L).toNat - 1) + 1 = (num_segments D L).toNat :=
          Nat.succ_pred_eq_of_pos hnat
        exact_mod_cast congrArg (Nat.cast : ℕ → ℚ) this
      have hDle : D ≤ (((num_segments D L).toNat : ℕ) : ℚ) * (L : ℚ) := by
        have hceil : D / (L : ℚ) ≤ ((⌈D / (L : ℚ)⌉ : ℤ) : ℚ) := Int.le_ceil _
        have htn : (((num_segments D L).toNat : ℕ) : ℚ) =
            ((num_segments D L : ℤ) : ℚ) := by
          exact_mod_cast congrArg (Int.cast : ℤ → ℚ)
            (Int.toNat_of_nonneg hnpos.le)
        rw [htn]
        exact (div_le_iff hL').mp hceil
      simp only [Option.map_some']
      rw [hcast, min_eq_right hDle]
  · have h3 : num_segments 1205 600 = 3 := by
      rw [num_segments, show ((600 : ℕ) : ℚ) = 600 by norm_num]
      rw [Int.ceil_eq_iff]
      constructor <;> norm_num
    rw [segment_bounds, h3]
    rw [show (3 : ℤ).toNat = 3 from rfl, show List.range 3 = [0, 1, 2] from rfl]
    norm_num [min_def]

/-- Witness for C2 at the spec's example: `D = 1205`, `L = 600`. -/
theorem c2_segment_bounds_partition_witness :
    (0 : ℚ) < 1205 ∧ 0 < 600
    ∧ ((segment_bounds 1205 600).length : ℤ) = num_segments 1205 600
    ∧ segment_bounds 1205 600 = [(0, 600), (600, 1200), (1200, 1205)] :=
  ⟨by decide, by decide,
    (c2_segment_bounds_partition.1 1205 600 (by decide) (by decide)).1,
    c2_segment_bounds_partition.2⟩

/-! ## Claim C1: parallel completion-order independence -/

/-- Both branches of a worker record the segment's own index. -/
theorem transcribe_single_segment_index (oracle : ℕ → Except String SegOk)
    (i : ℕ) : (transcribe_single_segment oracle i).index = i := by
  unfold transcribe_single_segment
  cases oracle i <;> rfl

/-- Effect of the completion-order fold on one slot of the `results`
array: a slot mentioned in the order holds its worker's result, any other
slot is untouched. -/
theorem collect_fold_get? (w : ℕ → ParallelResult)
    (hw : ∀ i, (w i).index = i) :
    ∀ (order : List ℕ) (init : List (Option ParallelResult)) (j : ℕ),
      (order.foldl (fun acc i => acc.set (w i).index (some (w i))) init).get? j =
        if j ∈ order then
          (if j < init.length then some (some (w j)) else none)
        else init.get? j := by
  intro order
  induction order with
  | nil => intro init j; simp
  | cons a rest ih =>
    intro init j
    rw [List.foldl_cons, hw a, ih]
    by_cases hj : j ∈ rest
    · rw [if_pos hj, if_pos (List.mem_cons_of_mem a hj), List.length_set]
    · by_cases hja : j = a
      · subst hja
        rw [if_neg hj, if_pos (List.mem_cons_self j rest)]
        by_cases hlen : j < init.length
        · rw [if_pos hlen, List.get?_set_eq_of_lt _ hlen]
        · rw [if_neg hlen, List.get?_eq_none.mpr
            (by rw [List.length_set]; exact not_lt.mp hlen)]
      · rw [if_neg hj, if_neg (by simp [hja, hj]),
          List.get?_set_ne _ _ fun h => hja h.symm]

/-- For any permutation of the completion order, the `results` array
filled by `as_completed` equals the array of the in-order worker
results. -/
theorem collect_results_eq (oracle : ℕ → Except String SegOk) (n : ℕ)
    (order : List ℕ) (h : order.Perm (List.range n)) :
    collect_results n order (transcribe_single_segment oracle) =
      (List.range n).map fun i => some (transcribe_single_segment oracle i) := by
  apply List.ext_get?_iff.mpr
  intro j
  rw [collect_results,
    collect_fold_get? _ (transcribe_single_segment_index oracle)]
  have hmem : j ∈ order ↔ j < n := by rw [h.mem_iff, List.mem_range]
  by_cases hj : j < n
  · rw [if_pos (hmem.mpr hj), if_pos (by simpa using hj), List.get?_map,
      List.get?_range hj]
    rfl
  · rw [if_neg (fun hmem' => hj (hmem.mp hmem')),
      List.get?_eq_none.mpr (by simpa using not_lt.mp hj),
      List.get?_eq_none.mpr (by simpa using not_lt.mp hj)]

/-- Combining an all-filled results array yields one entry per slot, with
1-based `segment_number`s following the slot positions. -/
theorem combine_aux_range' (w : ℕ → ParallelResult) :
    ∀ (m k : ℕ),
      combine_parallel_aux k ((List.range' k m).map fun i => some (w i)) =
        (List.range' k m).map fun i =>
          (⟨i + 1, (w i).transcription, some ((w i).language.getD "unknown"),
            some ((w i).duration.getD 0), none⟩ : TransData) := by
  intro m
  induction m with
  | zero => intro k; rfl
  | succ m ih =>
    intro k
    rw [List.range'_succ, List.map_cons, List.map_cons, combine_parallel_aux,
      ih (k + 1)]

/-- C1: in parallel mode, whatever the order in which segment futures
complete, the assembled `transcriptions_data` equals the one obtained by
completing the segments in index order; its `segment_number`s are exactly
`1, …, n` in order, and hence the concatenated transcript is the same. -/
theorem c1_parallel_order_independent (oracle : ℕ → Except String SegOk)
    (n : ℕ) (order : List ℕ) (h : order.Perm (List.range n)) :
    transcribe_segments_parallel oracle n order =
      transcribe_segments_parallel oracle n (List.range n)
    ∧ ((transcribe_segments_parallel oracle n order).map
        fun d => d.segment_number) = (List.range n).map (fun i => i + 1)
    ∧ assemble_full_text (transcribe_segments_parallel oracle n order) =
        assemble_full_text (transcribe_segments_parallel oracle n (List.range n)) := by
  have key := collect_results_eq oracle n order h
  have key0 := collect_results_eq oracle n (List.range n) (List.Perm.refl _)
  refine ⟨?_, ?_, ?_⟩
  · unfold transcribe_segments_parallel
    rw [key, key0]
  · unfold transcribe_segments_parallel combine_parallel
    rw [key, show List.range n = List.range' 0 n from List.range_eq_range' n,
      combine_aux_range', List.map_map]
    rfl
  · unfold transcribe_segments_parallel
    rw [key, key0]

/-- Deterministic engine oracle for the C1 witness: segment 1 (0-based)
fails, the others succeed. -/
def c1_oracle : ℕ → Except String SegOk := fun i =>
  if i = 1 then Except.error "cuda failure"
  else Except.ok ⟨["texto ", "uno"], "es", 600, 1⟩

/-- Witness for C1 at three segments completing in the order 2, 0, 1. -/
theorem c1_parallel_order_independent_witness :
    ([2, 0, 1].Perm (List.range 3))
    ∧ transcribe_segments_parallel c1_oracle 3 [2, 0, 1] =
        transcribe_segments_parallel c1_oracle 3 (List.range 3)
    ∧ ((transcribe_segments_parallel c1_oracle 3 [2, 0, 1]).map
        fun d => d.segment_number) = [1, 2, 3] := by
  have h := c1_parallel_order_independent c1_oracle 3 [2, 0, 1] (by decide)
  exact ⟨by decide, h.1, by rw [h.2.1]; rfl⟩

/-! ## Claim C4: retry semantics -/

/-- A message the source's check at line 829 classifies as a CUDA/cuDNN
device error. -/
def cuda_error_msg : String :=
  "cuDNN failed to initialize"

/-- C4 counterexample: with the default robust mode on, a segment whose
single engine call raises a CUDA-indicating exception is *not* retried —
the sequential segment loop makes exactly one attempt and swallows the
exception into a placeholder entry — while the same failure on the
whole-file path is retried on CPU (2 attempts, device downgraded); and on
the whole-file path a *non*-CUDA failure with attempts remaining is also
retried rather than re-raised.  So segment calls are not wrapped in the
claimed retry loop, and non-CUDA exceptions are not re-raised while
attempts remain. -/
theorem c4_counterexample :
    CONFIG.robust_mode = true
    ∧ cuda_indicated cuda_error_msg = true
    ∧ transcribe_segments_seq (fun _ => Except.error cuda_error_msg) 1 =
        [⟨1, seq_placeholder 1, none, none, some cuda_error_msg⟩]
    ∧ transcribe_with_retries true
        (fun _ _ => (Except.error cuda_error_msg : Except String Unit))
        PyDevice.cuda =
        (Except.error cuda_error_msg, 2, PyDevice.cpu)
    ∧ cuda_indicated "disk read failure" = false
    ∧ transcribe_with_retries true
        (fun a _ => if a = 0 then (Except.error "disk read failure" : Except String Unit)
          else Except.ok ())
        PyDevice.cuda =
        (Except.ok (), 2, PyDevice.cuda) :=
  ⟨rfl, rfl, rfl, rfl, rfl, rfl⟩

/-- C4 (amended): only the whole-file (non-segmented) transcribe call runs
in the bounded retry loop — at most 2 attempts in robust mode, exactly 1
otherwise.  A first-attempt failure whose message indicates CUDA/cuDNN
downgrades the device to CPU for the retry; a first-attempt failure with
any other message is retried too, on the unchanged device; the second
attempt's outcome (or its exception) is final.  A segment's transcribe
call in segmented mode is made exactly once: its exception becomes a
placeholder entry instead of being retried or re-raised. -/
theorem c4_retry_semantics (α : Type) :
    (∀ (oracle : ℕ → PyDevice → Except String α) (dev0 : PyDevice)
        (robust : Bool) (v : α), oracle 0 dev0 = Except.ok v →
        transcribe_with_retries robust oracle dev0 = (Except.ok v, 1, dev0))
    ∧ (∀ (oracle : ℕ → PyDevice → Except String α) (dev0 : PyDevice)
        (e : String), oracle 0 dev0 = Except.error e →
        transcribe_with_retries false oracle dev0 = (Except.error e, 1, dev0))
    ∧ (∀ (oracle : ℕ → PyDevice → Except String α) (dev0 : PyDevice)
        (e : String), oracle 0 dev0 = Except.error e →
        cuda_indicated e = true →
        transcribe_with_retries true oracle dev0 =
          (oracle 1 PyDevice.cpu, 2, PyDevice.cpu))
    ∧ (∀ (oracle : ℕ → PyDevice → Except String α) (dev0 : PyDevice)
        (e : String), oracle 0 dev0 = Except.error e →
        cuda_indicated e = false →
        transcribe_with_retries true oracle dev0 = (oracle 1 dev0, 2, dev0))
    ∧ (∀ (soracle : ℕ → Except String SegOk) (n i : ℕ), i < n →
        ∀ e, soracle i = Except.error e →
        (transcribe_segments_seq soracle n).get? i =
          some ⟨i + 1, seq_placeholder (i + 1), none, none, some e⟩) := by
  refine ⟨?_, ?_, ?_, ?_, ?_⟩
  · intro oracle dev0 robust v h0
    cases robust <;>
      simp [transcribe_with_retries, List.range_succ, attempt_loop, h0]
  · intro oracle dev0 e h0
    simp [transcribe_with_retries, List.range_succ, attempt_loop, h0]
  · intro oracle dev0 e h0 hcuda
    cases h1 : oracle 1 PyDevice.cpu <;>
      simp [transcribe_with_retries, List.range_succ, attempt_loop, h0,
        hcuda, h1]
  · intro oracle dev0 e h0 hcuda
    cases h1 : oracle 1 dev0 <;>
      simp [transcribe_with_retries, List.range_succ, attempt_loop, h0,
        hcuda, h1]
  · intro soracle n i hi e he
    rw [transcribe_segments_seq, List.get?_map, List.get?_range hi]
    simp [he]

/-- Concrete oracle for the C4 witness: CUDA-indicating failure on the
first attempt, success afterwards. -/
def c4_oracle : ℕ → PyDevice → Except String ℕ := fun a _ =>
  if a = 0 then Except.error cuda_error_msg else Except.ok 7

/-- Witness for C4 (amended) at concrete oracles. -/
theorem c4_retry_semantics_witness :
    transcribe_with_retries true (fun _ _ => (Except.ok 3 : Except String ℕ))
        PyDevice.cuda = (Except.ok 3, 1, PyDevice.cuda)
    ∧ transcribe_with_retries false
        (fun _ _ => (Except.error "x" : Except String ℕ)) PyDevice.cuda =
        (Except.error "x", 1, PyDevice.cuda)
    ∧ transcribe_with_retries true c4_oracle PyDevice.cuda =
        (Except.ok 7, 2, PyDevice.cpu)
    ∧ transcribe_with_retries true
        (fun a _ => if a = 0 then (Except.error "disk full" : Except String ℕ)
          else Except.ok 9) PyDevice.cuda = (Except.ok 9, 2, PyDevice.cuda)
    ∧ (transcribe_segments_seq (fun _ => Except.error "boom") 3).get? 2 =
        some ⟨3, seq_placeholder 3, none, none, some "boom"⟩ :=
  ⟨(c4_retry_semantics ℕ).1 _ PyDevice.cuda true 3 rfl,
   (c4_retry_semantics ℕ).2.1 _ PyDevice.cuda "x" rfl,
   ((c4_retry_semantics ℕ).2.2.1 c4_oracle PyDevice.cuda cuda_error_msg
     rfl rfl).trans rfl,
   ((c4_retry_semantics ℕ).2.2.2.1 _ PyDevice.cuda "disk full"
     rfl rfl).trans rfl,
   (c4_retry_semantics ℕ).2.2.2.2 _ 3 2 (by decide) "boom" rfl⟩

/-! ## Claim C5: per-segment failure isolation -/

/-- The transcript text as a right fold: each entry's text followed by the
paragraph break, in list order. -/
def texts_concat : List TransData → String
  | [] => ""
  | d :: rest => d.text ++ "\n\n" ++ texts_concat rest

/-- The `full_text` accumulation of `transcribe_audio` is exactly the
in-order concatenation of the entries' texts with paragraph breaks, so any
entry's text — a placeholder included — appears at its list position in
the final transcript. -/
theorem assemble_full_text_eq (ds : List TransData) :
    assemble_full_text ds = texts_concat ds := by
  suffices h : ∀ acc : String,
      ds.foldl (fun acc d => acc ++ d.text ++ "\n\n") acc =
        acc ++ texts_concat ds by
    have h0 := h ""
    rw [assemble_full_text, h0, String.empty_append]
  induction ds with
  | nil => intro acc; rw [texts_concat, List.foldl_nil, String.append_empty]
  | cons d rest ih =>
    intro acc
    rw [List.foldl_cons, ih, texts_concat, ← String.append_assoc,
      ← String.append_assoc]

/-- C5: in both segment modes, a segment whose transcription raises ends
up as an entry with a placeholder text at its own (1-based) position, the
other segments keep their real transcriptions, every slot is present
(`length = n`, `segment_number = position + 1`), and the assembled
transcript contains each entry's text — placeholder included — at its
position. -/
theorem c5_segment_failure_yields_placeholder
    (oracle : ℕ → Except String SegOk) (n i : ℕ) (hi : i < n)
    (e : String) (he : oracle i = Except.error e) :
    (transcribe_segments_seq oracle n).length = n
    ∧ (transcribe_segments_seq oracle n).get? i =
        some ⟨i + 1, seq_placeholder (i + 1), none, none, some e⟩
    ∧ (∀ j r, j < n → oracle j = Except.ok r →
        (transcribe_segments_seq oracle n).get? j =
          some ⟨j + 1, join_texts_seq r.texts, some r.language,
            some r.duration, none⟩)
    ∧ ((transcribe_segments_seq oracle n).map fun d => d.segment_number) =
        (List.range n).map (fun j => j + 1)
    ∧ (transcribe_segments_parallel oracle n (List.range n)).length = n
    ∧ (transcribe_segments_parallel oracle n (List.range n)).get? i =
        some ⟨i + 1, parallel_placeholder (i + 1), some "unknown", some 0, none⟩
    ∧ assemble_full_text (transcribe_segments_seq oracle n) =
        texts_concat (transcribe_segments_seq oracle n)
    ∧ ((transcribe_segments_seq oracle n).map fun d => d.text).get? i =
        some (seq_placeholder (i + 1)) := by
  have hpar : transcribe_segments_parallel oracle n (List.range n) =
      (List.range' 0 n).map fun j =>
        (⟨j + 1, (transcribe_single_segment oracle j).transcription,
          some ((transcribe_single_segment oracle j).language.getD "unknown"),
          some ((transcribe_single_segment oracle j).duration.getD 0),
          none⟩ : TransData) := by
    rw [transcribe_segments_parallel,
      collect_results_eq oracle n (List.range n) (List.Perm.refl _),
      combine_parallel,
      show List.range n = List.range' 0 n from List.range_eq_range' n,
      combine_aux_range']
  refine ⟨?_, ?_, ?_, ?_, ?_, ?_, assemble_full_text_eq _, ?_⟩
  · rw [transcribe_segments_seq, List.length_map, List.length_range]
  · rw [transcribe_segments_seq, List.get?_map, List.get?_range hi]
    simp [he]
  · intro j r hj hr
    rw [transcribe_segments_seq, List.get?_map, List.get?_range hj]
    simp [hr]
  · rw [transcribe_segments_seq, List.map_map]
    apply List.map_congr_left
    intro j _
    simp only [Function.comp_apply]
    cases oracle j <;> rfl
  · rw [hpar, List.length_map, List.length_range']
  · rw [hpar, List.get?_map]
    rw [show (List.range' 0 n).get? i = some i by
      rw [← List.range_eq_range' n]; exact List.get?_range hi]
    simp [transcribe_single_segment, he]
  · rw [transcribe_segments_seq, List.map_map, List.get?_map,
      List.get?_range hi]
    simp [he]

/-- Deterministic oracle for the C5 witness: of five segments, only
segment 2 (1-based; index 1) fails. -/
def c5_oracle : ℕ → Except String SegOk := fun j =>
  if j = 1 then Except.error "CUDA device failure"
  else Except.ok ⟨["segmento ", "ok"], "es", 600, 1⟩

/-- Witness for C5: five segments, segment 2 failing, the others real. -/
theorem c5_segment_failure_yields_placeholder_witness :
    (1 < 5) ∧ c5_oracle 1 = Except.error "CUDA device failure"
    ∧ (transcribe_segments_seq c5_oracle 5).length = 5
    ∧ (transcribe_segments_seq c5_oracle 5).get? 1 =
        some ⟨2, seq_placeholder 2, none, none, some "CUDA device failure"⟩
    ∧ (transcribe_segments_seq c5_oracle 5).get? 2 =
        some ⟨3, join_texts_seq ["segmento ", "ok"], some "es", some 600, none⟩
    ∧ (transcribe_segments_parallel c5_oracle 5 (List.range 5)).get? 1 =
        some ⟨2, parallel_placeholder 2, some "unknown", some 0, none⟩ := by
  have h := c5_segment_failure_yields_placeholder c5_oracle 5 1 (by decide)
    "CUDA device failure" rfl
  exact ⟨by decide, rfl, h.1, h.2.1,
    h.2.2.1 2 ⟨["segmento ", "ok"], "es", 600, 1⟩ (by decide) rfl,
    h.2.2.2.2.2.1⟩

/-! ## Claim C8: temporary preprocessed file -/

/-- A run with a valid input whose preprocessing created a temporary file
and whose transcription then raised (any exception lands at the line 948
handler). -/
def c8_env : RunEnv :=
  ⟨⟨true, 1000, ".mp3", Except.ok (700, 44100)⟩, "audio.mp3", true,
    Except.error "cuDNN failed to initialize"⟩

/-- C8 counterexample: a job whose preprocessing created a temporary file
and which then terminates with an error returns with the temporary file
still on disk — the `except` handler performs no deletion, so the claimed
"deleted on every exit path" fails on the error exit. -/
theorem c8_counterexample :
    (transcribe_audio_run c8_env).temp_created = true
    ∧ (transcribe_audio_run c8_env).success = false
    ∧ (transcribe_audio_run c8_env).temp_deleted = false :=
  ⟨rfl, rfl, rfl⟩

/-- C8 (amended): when preprocessing created a temporary normalized file,
`transcribe_audio` deletes it before returning only on the successful
exit path (line 890); on an error exit — any exception after
preprocessing — the function returns with the temporary file not
deleted. -/
theorem c8_temp_deleted_only_on_success (env : RunEnv) :
    (∀ info, validate_audio_file env.file env.file_path = Except.ok info →
      env.pipeline = Except.ok () →
      (transcribe_audio_run env).temp_created = env.preprocess_creates_temp
        ∧ (transcribe_audio_run env).temp_deleted = env.preprocess_creates_temp)
    ∧ (∀ e, env.pipeline = Except.error e →
        (transcribe_audio_run env).temp_deleted = false) := by
  constructor
  · intro info hv hp
    rw [transcribe_audio_run, hv, hp]
    exact ⟨rfl, rfl⟩
  · intro e hp
    rw [transcribe_audio_run]
    cases hv : validate_audio_file env.file env.file_path
    · rfl
    · rw [hp]

/-- A run identical to `c8_env` except that the pipeline succeeds. -/
def c8_ok_env : RunEnv :=
  ⟨⟨true, 1000, ".mp3", Except.ok (700, 44100)⟩, "audio.mp3", true,
    Except.ok ()⟩

/-- Witness for C8 (amended): same valid input with a temporary file; on
success the file is deleted, on the failing pipeline it is not. -/
theorem c8_temp_deleted_only_on_success_witness :
    validate_audio_file c8_ok_env.file c8_ok_env.file_path =
      Except.ok (700, 44100)
    ∧ (transcribe_audio_run c8_ok_env).temp_deleted = true
    ∧ (transcribe_audio_run c8_env).temp_deleted = false :=
  ⟨rfl,
   ((c8_temp_deleted_only_on_success c8_ok_env).1 (700, 44100) rfl rfl).2.trans
     rfl,
   (c8_temp_deleted_only_on_success c8_env).2 "cuDNN failed to initialize" rfl⟩

/-! ## Claim C9: progress record exists even on validation failure -/

/-- C9: the job's `transcription_progress` entry is created before
validation (line 612), so after any call — a failing validation
included — the store holds a record for the job id; when validation fails
the record ends in status `error`, carrying the formatted message, and
the call reports failure. -/
theorem c9_record_survives_validation_failure
    (store : String → Option Progress) (job_id : String) (start_time : ℚ)
    (env : RunEnv) :
    ((transcribe_audio_store store job_id start_time env).1 job_id).isSome = true
    ∧ (∀ e, validate_audio_file env.file env.file_path = Except.error e →
        (transcribe_audio_store store job_id start_time env).1 job_id =
          some ⟨JobStatus.error, start_time, some (run_error_msg e)⟩
        ∧ (transcribe_audio_store store job_id start_time env).2 = false) := by
  constructor
  · rw [transcribe_audio_store]
    simp [store_set]
  · intro e hv
    rw [transcribe_audio_store]
    constructor
    · show store_set store job_id _ job_id = _
      rw [store_set, if_pos rfl, transcribe_audio_run, hv]
    · show (transcribe_audio_run env).success = false
      rw [transcribe_audio_run, hv]

/-- A request for a file that does not exist. -/
def c9_env_missing : RunEnv :=
  ⟨⟨false, 0, ".mp3", Except.error "probe"⟩, "missing.mp3", false,
    Except.ok ()⟩

/-- A request for an unsupported extension. -/
def c9_env_format : RunEnv :=
  ⟨⟨true, 10, ".txt", Except.ok (5, 44100)⟩, "notes.txt", false,
    Except.ok ()⟩

/-- Witness for C9: a missing file and an unsupported format both leave a
persistent record in status `error` with the formatted message. -/
theorem c9_record_survives_validation_failure_witness :
    validate_audio_file c9_env_missing.file c9_env_missing.file_path =
      Except.error "Archivo no encontrado: missing.mp3"
    ∧ (transcribe_audio_store (fun _ => none) "job1" 0 c9_env_missing).1 "job1" =
        some ⟨JobStatus.error, 0,
          some (run_error_msg "Archivo no encontrado: missing.mp3")⟩
    ∧ validate_audio_file c9_env_format.file c9_env_format.file_path =
        Except.error "Formato no soportado: .txt"
    ∧ (transcribe_audio_store (fun _ => none) "job2" 3 c9_env_format).1 "job2" =
        some ⟨JobStatus.error, 3,
          some (run_error_msg "Formato no soportado: .txt")⟩ :=
  ⟨rfl,
   ((c9_record_survives_validation_failure (fun _ => none) "job1" 0
      c9_env_missing).2 _ rfl).1,
   rfl,
   ((c9_record_survives_validation_failure (fun _ => none) "job2" 3
      c9_env_format).2 _ rfl).1⟩

/-! ## Claim C10: summary of short texts -/

/-- C10 counterexample: `" hola"` is non-empty with one sentence, yet
`generate_summary` returns `"hola"` — the function returns the *stripped*
text, not the input unchanged. -/
theorem c10_counterexample :
    " hola" ≠ "" ∧ (sentence_list " hola").length ≤ 3
    ∧ generate_summary " hola" ≠ " hola"
    ∧ generate_summary " hola" = "hola" := by
  refine ⟨by decide, by decide, by decide, rfl⟩

/-- C10 (amended): for input whose stripped text is non-empty and has at
most 3 sentences (splitting on `'.'`), `generate_summary` returns the
input stripped of leading/trailing whitespace and otherwise unchanged —
no sentence selection, deduplication or statistics footer; for empty or
whitespace-only input it returns the fixed no-content message. -/
theorem c10_short_text_summary :
    (∀ text : String, pyStrip text = "" →
      generate_summary text = no_content_msg)
    ∧ (∀ text : String, pyStrip text ≠ "" →
        (sentence_list (pyStrip text)).length ≤ 3 →
        generate_summary text = pyStrip text) := by
  constructor
  · intro text h
    rw [generate_summary, if_pos h]
  · intro text h1 h2
    rw [generate_summary, if_neg h1]
    simp only []
    rw [if_pos h2]

/-- Witness for C10 (amended) at whitespace-only and two-sentence
inputs. -/
theorem c10_short_text_summary_witness :
    (pyStrip "  " = "" ∧ generate_summary "  " = no_content_msg)
    ∧ (pyStrip " hola. adios" ≠ ""
        ∧ (sentence_list (pyStrip " hola. adios")).length ≤ 3
        ∧ generate_summary " hola. adios" = "hola. adios") :=
  ⟨⟨rfl, c10_short_text_summary.1 "  " rfl⟩,
   ⟨by decide, by decide,
    (c10_short_text_summary.2 " hola. adios" (by decide) (by decide)).trans
      rfl⟩⟩

/-! ## Claim C3: progress-percent monotonicity -/

/-- The percents written by a sequence of updates, in order. -/
def pcts (t : List Upd) : List ℤ :=
  t.filterMap Upd.pct

/-- Percents distribute over concatenated update sequences. -/
theorem pcts_append (a b : List Upd) : pcts (a ++ b) = pcts a ++ pcts b :=
  List.filterMap_append a b Upd.pct

/-- Percents of a list of pure percent writes. -/
theorem pcts_of_map_some (f : ℕ → ℤ) :
    ∀ l : List ℕ, pcts (l.map fun i => ⟨some (f i), none⟩) = l.map f := by
  intro l
  induction l with
  | nil => rfl
  | cons a rest ih =>
    rw [List.map_cons, pcts, List.filterMap_cons, List.map_cons]
    rw [pcts] at ih
    rw [ih]

/-- The sequential per-segment percent never drops below the 25 written at
segmentation time. -/
theorem seq_pct_lower (n i : ℕ) : (25 : ℤ) ≤ seq_segment_pct n i := by
  rw [seq_segment_pct]
  have h : (0 : ℤ) ≤ ((65 * i / n : ℕ) : ℤ) := Int.ofNat_nonneg _
  linarith

/-- The sequential per-segment percent stays below the 90 written at
combination time. -/
theorem seq_pct_upper (n i : ℕ) (h : i < n) : seq_segment_pct n i ≤ 89 := by
  rw [seq_segment_pct]
  have h1 : 65 * i / n < 65 := by
    rw [Nat.div_lt_iff_lt_mul (by omega)]
    omega
  have h2 : 65 * i / n ≤ 64 := by omega
  have h3 : ((65 * i / n : ℕ) : ℤ) ≤ 64 := by exact_mod_cast h2
  linarith

/-- The sequential per-segment percent is monotone in the segment
index. -/
theorem seq_pct_mono (n : ℕ) {i j : ℕ} (h : i ≤ j) :
    seq_segment_pct n i ≤ seq_segment_pct n j := by
  rw [seq_segment_pct, seq_segment_pct]
  have h1 : 65 * i / n ≤ 65 * j / n := Nat.div_le_div_right (by omega)
  have h2 : ((65 * i / n : ℕ) : ℤ) ≤ ((65 * j / n : ℕ) : ℤ) := by
    exact_mod_cast h1
  linarith

/-- Sandwich lemma: a sorted prefix below `x`, a sorted middle within
`[x, y]` and a sorted tail above `y` concatenate to a sorted list. -/
theorem pairwise_le_three (A M B : List ℤ) (x y : ℤ)
    (hA : List.Pairwise (fun a b : ℤ => a ≤ b) A)
    (hM : List.Pairwise (fun a b : ℤ => a ≤ b) M)
    (hB : List.Pairwise (fun a b : ℤ => a ≤ b) B)
    (hAx : ∀ a ∈ A, a ≤ x) (hMxy : ∀ m ∈ M, x ≤ m ∧ m ≤ y)
    (hBy : ∀ b ∈ B, y ≤ b) (hxy : x ≤ y) :
    List.Pairwise (fun a b : ℤ => a ≤ b) (A ++ (M ++ B)) := by
  apply List.pairwise_append.mpr
  refine ⟨hA, List.pairwise_append.mpr ⟨hM, hB, ?_⟩, ?_⟩
  · intro m hm b hb
    exact le_trans (hMxy m hm).2 (hBy b hb)
  · intro a ha u hu
    rcases List.mem_append.mp hu with h | h
    · exact le_trans (hAx a ha) (hMxy u h).1
    · exact le_trans (hAx a ha) (le_trans hxy (hBy u h))

/-- The direct-path percent is monotone in the processed duration. -/
theorem direct_pct_mono (D : ℚ) (hD : 0 < D) {a b : ℚ} (h : a ≤ b) :
    direct_pct D a ≤ direct_pct D b := by
  rw [direct_pct, direct_pct]
  apply min_le_min _ le_rfl
  have h1 : a / D * 40 ≤ b / D * 40 := by gcongr
  exact add_le_add_left (Int.floor_le_floor h1) 50

/-- The direct-path percent stays within `[50, 90]` for non-negative
processed durations. -/
theorem direct_pct_bounds (D : ℚ) (hD : 0 < D) {a : ℚ} (ha : 0 ≤ a) :
    50 ≤ direct_pct D a ∧ direct_pct D a ≤ 90 := by
  constructor
  · rw [direct_pct]
    apply le_min _ (by norm_num)
    have h1 : (0 : ℚ) ≤ a / D * 40 := by positivity
    have h2 : (0 : ℤ) ≤ ⌊a / D * 40⌋ := Int.floor_nonneg.mpr h1
    linarith
  · exact min_le_right _ _

/-- The percents written by the direct path's sub-segment loop are sorted
and lie within `[50, 90]`, provided the engine's sub-segments have
non-negative durations. -/
theorem direct_updates_sorted (D : ℚ) (hD : 0 < D) :
    ∀ (segs : List (ℚ × ℚ)) (i : ℕ) (acc : ℚ), 0 ≤ acc →
      (∀ p ∈ segs, p.1 ≤ p.2) →
      List.Pairwise (fun a b : ℤ => a ≤ b) (pcts (direct_updates D segs i acc))
      ∧ ∀ v ∈ pcts (direct_updates D segs i acc),
          direct_pct D acc ≤ v ∧ 50 ≤ v ∧ v ≤ 90 := by
  intro segs
  induction segs with
  | nil =>
    intro i acc hacc hseg
    exact ⟨List.Pairwise.nil, by intro v hv; simp [direct_updates, pcts] at hv⟩
  | cons seg rest ih =>
    intro i acc hacc hseg
    have hseg0 : seg.1 ≤ seg.2 := hseg seg (List.mem_cons_self seg rest)
    have hrest : ∀ p ∈ rest, p.1 ≤ p.2 :=
      fun p hp => hseg p (List.mem_cons_of_mem seg hp)
    have hacc' : 0 ≤ acc + (seg.2 - seg.1) := by linarith
    have hmono : direct_pct D acc ≤ direct_pct D (acc + (seg.2 - seg.1)) :=
      direct_pct_mono D hD (by linarith)
    have hbnd := direct_pct_bounds D hD hacc'
    obtain ⟨ihp, ihb⟩ := ih (i + 1) (acc + (seg.2 - seg.1)) hacc' hrest
    rw [direct_updates]
    by_cases hi : i % 10 = 0
    · rw [if_pos hi, pcts_append]
      constructor
      · apply List.pairwise_append.mpr
        refine ⟨List.pairwise_singleton _ _, ihp, ?_⟩
        intro a ha v hv
        rcases List.mem_singleton.mp ha with rfl
        exact (ihb v hv).1
      · intro v hv
        rcases List.mem_append.mp hv with h | h
        · rcases List.mem_singleton.mp h with rfl
          exact ⟨hmono, hbnd.1, hbnd.2⟩
        · obtain ⟨h1, h2, h3⟩ := ihb v h
          exact ⟨le_trans hmono h1, h2, h3⟩
    · rw [if_neg hi, List.nil_append]
      refine ⟨ihp, ?_⟩
      intro v hv
      obtain ⟨h1, h2, h3⟩ := ihb v hv
      exact ⟨le_trans hmono h1, h2, h3⟩

/-- All updates emitted by the parallel workers write a percent only, no
status. -/
theorem parallel_updates_st_none (n : ℕ) :
    ∀ (evs : List PEvent) (c : ℕ) (u : Upd),
      u ∈ parallel_updates n evs c → u.st = none := by
  intro evs
  induction evs with
  | nil => intro c u hu; simp [parallel_updates] at hu
  | cons ev rest ih =>
    intro c u hu
    cases ev <;>
    · rw [parallel_updates] at hu
      rcases List.mem_cons.mp hu with h | h
      · rw [h]
      · exact ih _ u h

/-- All updates emitted by the direct sub-segment loop write a percent
only, no status. -/
theorem direct_updates_st_none (D : ℚ) :
    ∀ (segs : List (ℚ × ℚ)) (i : ℕ) (acc : ℚ) (u : Upd),
      u ∈ direct_updates D segs i acc → u.st = none := by
  intro segs
  induction segs with
  | nil => intro i acc u hu; simp [direct_updates] at hu
  | cons seg rest ih =>
    intro i acc u hu
    rw [direct_updates] at hu
    rcases List.mem_append.mp hu with h | h
    · by_cases hi : i % 10 = 0
      · rw [if_pos hi] at h
        rcases List.mem_singleton.mp h with rfl
        rfl
      · rw [if_neg hi] at h
        simp at h
    · exact ih _ _ u h

/-- C3 counterexample: a valid parallel run over two segments (the pool
executing the two workers one after the other) writes the percent
sequence `…, 25, 20, …`: the first worker's pre-transcription update
(line 391, `int((0/2)*70) + 20 = 20`) undoes the 25 written at line 672,
so the percent sequence of this job is not monotonically
non-decreasing. -/
theorem c3_counterexample :
    ¬ List.Chain' (fun a b : ℤ => a ≤ b)
      (pcts (parallel_trace 2
        [PEvent.pre, PEvent.done, PEvent.pre, PEvent.done] false)) := by
  intro h
  have ht : pcts (parallel_trace 2
      [PEvent.pre, PEvent.done, PEvent.pre, PEvent.done] false) =
      [0, 5, 10, 20, 22, 25, 20, 55, 55, 90, 90, 95, 95, 100] := rfl
  rw [ht] at h
  simp [List.chain'_cons] at h

/-- C3 (amended): along the direct path and the sequential segmented path
the job's percent writes are monotonically non-decreasing; in the
parallel path a worker's pre-transcription update
(`int((completed/total)*70) + 20`) can lower the percent (for example
from 25 to 20, see the counterexample).  In every path, the only update
that writes a terminal status is the final one of the run — once
`completado` (or, on the error path, `error`) is written the record does
not change again except by `/cleanup` removing it. -/
theorem c3_progress_monotonic_per_path :
    (∀ (n : ℕ) (s : Bool),
      List.Chain' (fun a b : ℤ => a ≤ b) (pcts (seq_trace n s)))
    ∧ (∀ (segs : List (ℚ × ℚ)) (D : ℚ) (s : Bool), 0 < D →
        (∀ p ∈ segs, p.1 ≤ p.2) →
        List.Chain' (fun a b : ℤ => a ≤ b) (pcts (direct_trace segs D s)))
    ∧ (∀ (n : ℕ) (s : Bool), (seq_trace n s).getLast? = some final_upd
        ∧ ∀ u ∈ seq_trace_body n s,
            u.st ≠ some JobStatus.completado ∧ u.st ≠ some JobStatus.error)
    ∧ (∀ (n : ℕ) (evs : List PEvent) (s : Bool),
        (parallel_trace n evs s).getLast? = some final_upd
        ∧ ∀ u ∈ parallel_trace_body n evs s,
            u.st ≠ some JobStatus.completado ∧ u.st ≠ some JobStatus.error)
    ∧ (∀ (segs : List (ℚ × ℚ)) (D : ℚ) (s : Bool),
        (direct_trace segs D s).getLast? = some final_upd
        ∧ ∀ u ∈ direct_trace_body segs D s,
            u.st ≠ some JobStatus.completado ∧ u.st ≠ some JobStatus.error) := by
  refine ⟨?_, ?_, ?_, ?_, ?_⟩
  · intro n s
    apply List.Pairwise.chain'
    have hshape : pcts (seq_trace n s) =
        pcts segmented_head_upds ++
          ((List.range n).map (seq_segment_pct n) ++
            (pcts (segmented_tail s) ++ [100])) := by
      rw [seq_trace, seq_trace_body, pcts_append, pcts_append, pcts_append,
        pcts_of_map_some, List.append_assoc, List.append_assoc]
      rfl
    rw [hshape]
    apply pairwise_le_three _ _ _ 25 90
    · decide
    · exact (List.pairwise_lt_range n).map _
        fun a b hab => seq_pct_mono n hab.le
    · cases s <;> decide
    · decide
    · intro m hm
      rcases List.mem_map.mp hm with ⟨i, hi, rfl⟩
      exact ⟨seq_pct_lower n i,
        le_trans (seq_pct_upper n i (List.mem_range.mp hi)) (by norm_num)⟩
    · cases s <;> decide
    · norm_num
  · intro segs D s hD hsegs
    apply List.Pairwise.chain'
    obtain ⟨hp, hb⟩ := direct_updates_sorted D hD segs 0 0 le_rfl hsegs
    have hshape : pcts (direct_trace segs D s) =
        [0, 5, 10, 20, 25, 50] ++
          (pcts (direct_updates D segs 0 0) ++
            (pcts ([⟨some 95, none⟩] ++
              (if s then [⟨some 97, none⟩] else [])) ++ [100])) := by
      rw [direct_trace, direct_trace_body, pcts_append, pcts_append,
        pcts_append, List.append_assoc, List.append_assoc]
      rfl
    rw [hshape]
    apply pairwise_le_three _ _ _ 50 90
    · decide
    · exact hp
    · cases s <;> decide
    · decide
    · intro m hm
      obtain ⟨_, h2, h3⟩ := hb m hm
      exact ⟨h2, h3⟩
    · cases s <;> decide
    · norm_num
  · intro n s
    have hpre : ∀ v ∈ segmented_head_upds,
        v.st ≠ some JobStatus.completado ∧ v.st ≠ some JobStatus.error := by
      decide
    have htail : ∀ v ∈ segmented_tail s, v.st = none := by
      cases s <;> decide
    constructor
    · rw [seq_trace]
      simp
    · intro u hu
      rw [seq_trace_body] at hu
      rcases List.mem_append.mp hu with h | h
      · rcases List.mem_append.mp h with h1 | h1
        · exact hpre u h1
        · rcases List.mem_map.mp h1 with ⟨i, _, rfl⟩
          exact ⟨by simp, by simp⟩
      · rw [htail u h]
        exact ⟨by simp, by simp⟩
  · intro n evs s
    have hpre : ∀ v ∈ segmented_head_upds,
        v.st ≠ some JobStatus.completado ∧ v.st ≠ some JobStatus.error := by
      decide
    have htail : ∀ v ∈ segmented_tail s, v.st = none := by
      cases s <;> decide
    constructor
    · rw [parallel_trace]
      simp
    · intro u hu
      rw [parallel_trace_body] at hu
      rcases List.mem_append.mp hu with h | h
      · rcases List.mem_append.mp h with h1 | h1
        · exact hpre u h1
        · rw [parallel_updates_st_none n evs 0 u h1]
          exact ⟨by simp, by simp⟩
      · rw [htail u h]
        exact ⟨by simp, by simp⟩
  · intro segs D s
    have hpre : ∀ v ∈ ([⟨some 0, some JobStatus.iniciando⟩, ⟨some 5, none⟩,
        ⟨some 10, none⟩, ⟨some 20, none⟩,
        ⟨some 25, some JobStatus.transcribiendo⟩,
        ⟨some 50, some JobStatus.transcribiendo⟩] : List Upd),
        v.st ≠ some JobStatus.completado ∧ v.st ≠ some JobStatus.error := by
      decide
    have htail : ∀ v ∈ ([⟨some 95, none⟩] ++
        (if s then [⟨some 97, none⟩] else []) : List Upd), v.st = none := by
      cases s <;> decide
    constructor
    · rw [direct_trace]
      simp
    · intro u hu
      rw [direct_trace_body] at hu
      rcases List.mem_append.mp hu with h | h
      · rcases List.mem_append.mp h with h1 | h1
        · exact hpre u h1
        · rw [direct_updates_st_none D segs 0 0 u h1]
          exact ⟨by simp, by simp⟩
      · rw [htail u h]
        exact ⟨by simp, by simp⟩

/-- Witness for C3 (amended): four sequential segments and a direct run
over two engine sub-segments of a 100 s audio. -/
theorem c3_progress_monotonic_per_path_witness :
    (0 : ℚ) < 100
    ∧ (∀ p ∈ [((0 : ℚ), (60 : ℚ)), ((60 : ℚ), (100 : ℚ))], p.1 ≤ p.2)
    ∧ List.Chain' (fun a b : ℤ => a ≤ b) (pcts (seq_trace 4 false))
    ∧ List.Chain' (fun a b : ℤ => a ≤ b)
        (pcts (direct_trace [((0 : ℚ), (60 : ℚ)), ((60 : ℚ), (100 : ℚ))] 100 true))
    ∧ (parallel_trace 3 [PEvent.pre] true).getLast? = some final_upd :=
  ⟨by decide, by decide, c3_progress_monotonic_per_path.1 4 false,
   c3_progress_monotonic_per_path.2.1 _ 100 true (by decide) (by decide),
   (c3_progress_monotonic_per_path.2.2.2.1 3 [PEvent.pre] true).1⟩

end Transcripcion
